import Mathlib

/-!
Verification of the graph-editor data-access layer (GraphApp/app.py).

The Python program persists a directed graph in two PostgreSQL tables,
`nodes(id SERIAL, name TEXT)` and `edges(id SERIAL, start_node INT,
end_node INT, name TEXT)`, inside a per-tenant schema, and exposes CRUD
functions (`init_database`, `add_node`, `add_edge`, `get_nodes`,
`get_edges`, `delete_edge`, `delete_node`).  We embed the database state,
a small semantics of exactly the SQL statements the program issues
(including the failure of a statement referencing an undefined column,
and transaction rollback on error), Python's `dict` construction used for
name-to-id resolution, and each Python function, and prove the spec's
claims about them.
-/

namespace GraphApp

/-! ### Python `dict` model

`dict(pairs)` in Python builds a mapping in which a later binding of a key
overwrites the earlier value in place (original insertion position kept).
We model a dict as an association list without duplicate keys, built by
repeated `dictSet` from `[]`; `dictFind` is subscript lookup `d[k]`
(returning `none` where Python raises `KeyError`). -/

def dictFind {α β : Type} [DecidableEq α] : List (α × β) → α → Option β
  | [], _ => Option.none
  | p :: rest, k => if p.1 = k then some p.2 else dictFind rest k

def dictSet {α β : Type} [DecidableEq α] : List (α × β) → α → β → List (α × β)
  | [], k, v => [(k, v)]
  | p :: rest, k, v => if p.1 = k then (k, v) :: rest else p :: dictSet rest k v

/-- `dict(pairs)`: fold the pairs into a dict, later bindings overwriting. -/
def dictOfPairs {α β : Type} [DecidableEq α] (ps : List (α × β)) : List (α × β) :=
  ps.foldl (fun d p => dictSet d p.1 p.2) []

/-- The value attached to the last pair of `ps` whose key is `k`
(the value that survives `dict(ps)`). -/
def lastVal {α β : Type} [DecidableEq α] : List (α × β) → α → Option β
  | [], _ => Option.none
  | p :: rest, k =>
    match lastVal rest k with
    | some v => some v
    | Option.none => if p.1 = k then some p.2 else Option.none

/-! ### String helpers used by the source -/

/-- Python `str.strip()`: remove leading and trailing whitespace. -/
def strip (s : String) : String :=
  ⟨((s.data.dropWhile Char.isWhitespace).reverse.dropWhile Char.isWhitespace).reverse⟩

/-- Python `str.replace(c, '')`: remove every occurrence of the character. -/
def removeChar (s : String) (c : Char) : String :=
  ⟨s.data.filter (fun x => x ≠ c)⟩

/-- `get_schema_name()`: `f"{pgappname}_schema_{pguser}"` where `pguser` is
`os.getenv("PGUSER", "").replace('-', '')` and `pgappname` is
`os.getenv("PGAPPNAME", "my_app")`.  The two environment values are taken
as parameters. -/
def get_schema_name (pgappname pguser : String) : String :=
  pgappname ++ "_schema_" ++ removeChar pguser '-'

/-! ### Database state and statement semantics

The state of the tenant schema: whether the schema itself and each table
exist, the rows of each table, and each table's SERIAL sequence value.
A `nodes` row is `(id, name)`; an `edges` row has the four declared
columns. -/

structure EdgeRow where
  id : Nat
  start_node : Nat
  end_node : Nat
  name : String
deriving DecidableEq, Repr

structure DbState where
  schemaCreated : Bool
  nodes : Option (List (Nat × String))
  nodeSeq : Nat
  edges : Option (List EdgeRow)
  edgeSeq : Nat
deriving DecidableEq, Repr

/-- The columns of the `edges` table as declared by `init_database`. -/
def edgeColumns : List String := ["id", "start_node", "end_node", "name"]

/-- The integer-typed columns of `edges`, as selectors; `none` for a name
that is not an integer column of the table. -/
def edgeIntCol? : String → Option (EdgeRow → Nat)
  | "id" => some EdgeRow.id
  | "start_node" => some EdgeRow.start_node
  | "end_node" => some EdgeRow.end_node
  | _ => Option.none

/-- Exactly the SQL statements the program issues.  The two DELETE
statements carry the column names written in their WHERE clauses, so that
the semantics can reject an undefined column the way PostgreSQL does
(the source writes `start`, which is not a column of `edges`).
`deleteEdgesByEither` carries string values because `delete_node` binds
its `node_id` argument (a name, text) to both parameters. -/
inductive Stmt where
  | createSchemaIfNotExists
  | createNodesTableIfNotExists
  | createEdgesTableIfNotExists
  | insertNode (name : String)
  | insertEdge (startNode endNode : Nat) (name : String)
  | selectEdges
  | selectNodes
  | deleteEdgesByCols (col1 : String) (v1 : Nat) (col2 : String) (v2 : Nat)
  | deleteNodesByName (name : String)
  | deleteEdgesByEither (col1 : String) (v1 : String) (col2 : String) (v2 : String)
deriving DecidableEq, Repr

inductive QueryResult where
  | noRows
  | nodeRows (rows : List (Nat × String))
  | edgeRows (rows : List (Nat × Nat))
deriving DecidableEq, Repr

/-- One statement against the schema: returns the new state and the rows,
or the PostgreSQL error. -/
def execStmt : Stmt → DbState → Except String (DbState × QueryResult)
  | Stmt.createSchemaIfNotExists, s =>
    Except.ok ({ s with schemaCreated := true }, QueryResult.noRows)
  | Stmt.createNodesTableIfNotExists, s =>
    if s.schemaCreated then
      match s.nodes with
      | some _ => Except.ok (s, QueryResult.noRows)
      | Option.none =>
        Except.ok ({ s with nodes := some [], nodeSeq := 1 }, QueryResult.noRows)
    else Except.error "schema does not exist"
  | Stmt.createEdgesTableIfNotExists, s =>
    if s.schemaCreated then
      match s.edges with
      | some _ => Except.ok (s, QueryResult.noRows)
      | Option.none =>
        Except.ok ({ s with edges := some [], edgeSeq := 1 }, QueryResult.noRows)
    else Except.error "schema does not exist"
  | Stmt.insertNode name, s =>
    match s.nodes with
    | Option.none => Except.error "relation nodes does not exist"
    | some rows =>
      Except.ok ({ s with nodes := some (rows ++ [(s.nodeSeq, name)]),
                          nodeSeq := s.nodeSeq + 1 }, QueryResult.noRows)
  | Stmt.insertEdge a b name, s =>
    match s.edges with
    | Option.none => Except.error "relation edges does not exist"
    | some rows =>
      Except.ok ({ s with edges := some (rows ++ [⟨s.edgeSeq, a, b, name⟩]),
                          edgeSeq := s.edgeSeq + 1 }, QueryResult.noRows)
  | Stmt.selectEdges, s =>
    match s.edges with
    | Option.none => Except.error "relation edges does not exist"
    | some rows =>
      Except.ok (s, QueryResult.edgeRows (rows.map fun e => (e.start_node, e.end_node)))
  | Stmt.selectNodes, s =>
    match s.nodes with
    | Option.none => Except.error "relation nodes does not exist"
    | some rows => Except.ok (s, QueryResult.nodeRows rows)
  | Stmt.deleteEdgesByCols c1 v1 c2 v2, s =>
    match s.edges with
    | Option.none => Except.error "relation edges does not exist"
    | some rows =>
      if c1 ∈ edgeColumns then
        if c2 ∈ edgeColumns then
          match edgeIntCol? c1, edgeIntCol? c2 with
          | some f, some g =>
            Except.ok ({ s with
              edges := some (rows.filter fun e => !(f e == v1 && g e == v2)) },
              QueryResult.noRows)
          | _, _ => Except.error "operator does not exist: text = integer"
        else Except.error ("column " ++ c2 ++ " does not exist")
      else Except.error ("column " ++ c1 ++ " does not exist")
  | Stmt.deleteNodesByName name, s =>
    match s.nodes with
    | Option.none => Except.error "relation nodes does not exist"
    | some rows =>
      Except.ok ({ s with nodes := some (rows.filter fun p => !(p.2 == name)) },
        QueryResult.noRows)
  | Stmt.deleteEdgesByEither c1 v1 c2 v2, s =>
    match s.edges with
    | Option.none => Except.error "relation edges does not exist"
    | some rows =>
      if c1 ∈ edgeColumns then
        if c2 ∈ edgeColumns then
          match edgeIntCol? c1, edgeIntCol? c2 with
          | some f, some g =>
            match v1.toNat?, v2.toNat? with
            | some n1, some n2 =>
              Except.ok ({ s with
                edges := some (rows.filter fun e => !(f e == n1 || g e == n2)) },
                QueryResult.noRows)
            | _, _ => Except.error "invalid input syntax for type integer"
          | _, _ => Except.error "operator does not exist: text = integer"
        else Except.error ("column " ++ c2 ++ " does not exist")
      else Except.error ("column " ++ c1 ++ " does not exist")

/-- Run statements in sequence, stopping at the first error. -/
def runStmts : List Stmt → DbState → Except String DbState
  | [], s => Except.ok s
  | st :: rest, s =>
    match execStmt st s with
    | Except.error e => Except.error e
    | Except.ok (s', _) => runStmts rest s'

/-! ### The Python functions

Each function is `DbState → DbState × Except String result`.  The returned
state is the state after the call: the source runs its statements inside
`with get_connection() as conn:` blocks and commits at the end, while an
exception propagates out of the block and rolls the transaction back, so
on an error the state is the one from before the failing transaction.
A Python function without a `return` statement returns `None`; we model
Python return values needed by the UI with `PyValue`. -/

inductive PyValue where
  | none
  | bool (b : Bool)
deriving DecidableEq, Repr

/-- Python truthiness of the return values occurring here:
`None` is falsy, a bool is itself. -/
def pyTruthy : PyValue → Bool
  | PyValue.none => false
  | PyValue.bool b => b

/-- `init_database()`: CREATE SCHEMA IF NOT EXISTS, then the two CREATE
TABLE IF NOT EXISTS statements, commit, `return True`. -/
def init_database (s : DbState) : DbState × Except String PyValue :=
  match runStmts [Stmt.createSchemaIfNotExists, Stmt.createNodesTableIfNotExists,
      Stmt.createEdgesTableIfNotExists] s with
  | Except.ok s' => (s', Except.ok (PyValue.bool true))
  | Except.error e => (s, Except.error e)

/-- `add_node(node)`: `INSERT INTO {schema}.nodes (name) VALUES (%s)` with
`node.strip()`, then commit.  Returns `None`. -/
def add_node (s : DbState) (node : String) : DbState × Except String PyValue :=
  match runStmts [Stmt.insertNode (strip node)] s with
  | Except.ok s' => (s', Except.ok PyValue.none)
  | Except.error e => (s, Except.error e)

/-- `get_nodes()`: `SELECT id, name FROM {schema}.nodes`, fetchall. -/
def get_nodes (s : DbState) : DbState × Except String (List (Nat × String)) :=
  match execStmt Stmt.selectNodes s with
  | Except.ok (s', QueryResult.nodeRows rows) => (s', Except.ok rows)
  | Except.ok (s', _) => (s', Except.ok [])
  | Except.error e => (s, Except.error e)

/-- `get_edges()`: `SELECT start_node, end_node FROM {schema}.edges`,
fetchall. -/
def get_edges (s : DbState) : DbState × Except String (List (Nat × Nat)) :=
  match execStmt Stmt.selectEdges s with
  | Except.ok (s', QueryResult.edgeRows rows) => (s', Except.ok rows)
  | Except.ok (s', _) => (s', Except.ok [])
  | Except.error e => (s, Except.error e)

/-- The name-to-id mapping `add_edge` builds:
`node_dict = dict(get_nodes())` and then the inverted comprehension
`d_swap = {v: k for k, v in node_dict.items()}`. -/
def build_d_swap (rows : List (Nat × String)) : List (String × Nat) :=
  dictOfPairs ((dictOfPairs rows).map fun p => (p.2, p.1))

/-- `add_edge(start, end)`: re-read the node list, build `d_swap`, then
`INSERT INTO {schema}.edges (start_node, end_node, name)
VALUES (%s, %s, ' ')` with `(d_swap[start.strip()], d_swap[end.strip()])`.
Both subscript lookups are evaluated (left to right) while building the
parameter tuple, before the INSERT executes; a missing name raises
`KeyError` and nothing is inserted.  Returns `None`. -/
def add_edge (s : DbState) (start end_ : String) : DbState × Except String PyValue :=
  match get_nodes s with
  | (s₁, Except.error e) => (s₁, Except.error e)
  | (s₁, Except.ok rows) =>
    let d_swap := build_d_swap rows
    match dictFind d_swap (strip start) with
    | Option.none => (s₁, Except.error "KeyError")
    | some a =>
      match dictFind d_swap (strip end_) with
      | Option.none => (s₁, Except.error "KeyError")
      | some b =>
        match runStmts [Stmt.insertEdge a b " "] s₁ with
        | Except.ok s₂ => (s₂, Except.ok PyValue.none)
        | Except.error e => (s₁, Except.error e)

/-- `delete_edge(start, end)`:
`DELETE FROM {schema}.edges WHERE start = %s and end_node = %s` — the
WHERE clause names a column `start` that the `edges` table does not have. -/
def delete_edge (s : DbState) (start end_ : Nat) : DbState × Except String PyValue :=
  match runStmts [Stmt.deleteEdgesByCols "start" start "end_node" end_] s with
  | Except.ok s' => (s', Except.ok PyValue.none)
  | Except.error e => (s, Except.error e)

/-- `delete_node(node_id)`:
`DELETE FROM {schema}.nodes WHERE name = %s` followed by
`DELETE FROM {schema}.edges WHERE start = %s OR end_node = %s`, both with
`node_id`, then commit.  The second statement names the nonexistent
column `start`; its failure aborts the transaction before the commit, so
the first delete is rolled back too. -/
def delete_node (s : DbState) (node_id : String) : DbState × Except String PyValue :=
  match runStmts [Stmt.deleteNodesByName node_id,
      Stmt.deleteEdgesByEither "start" node_id "end_node" node_id] s with
  | Except.ok s' => (s', Except.ok PyValue.none)
  | Except.error e => (s, Except.error e)

/-- The spec's `snapshot()`: `display_graph` reads
`vertices = get_nodes()` then `edge_list = get_edges()`. -/
def snapshot (s : DbState) :
    DbState × (Except String (List (Nat × String)) × Except String (List (Nat × Nat))) :=
  let r₁ := get_nodes s
  let r₂ := get_edges r₁.1
  (r₂.1, (r₁.2, r₂.2))

/-- The last row of a node list whose name is the given one: a later
matching row wins over an earlier one, mirroring iteration order. -/
def lastRowNamed : List (Nat × String) → String → Option (Nat × String)
  | [], _ => Option.none
  | p :: rest, name =>
    match lastRowNamed rest name with
    | some q => some q
    | Option.none => if p.2 = name then some p else Option.none

/-! ### Concrete states used to instantiate the theorems -/

/-- A store with nodes A and B and no edge. -/
def sampleState : DbState :=
  { schemaCreated := true, nodes := some [(1, "A"), (2, "B")], nodeSeq := 3,
    edges := some [], edgeSeq := 1 }

/-- A store with a single node A and a self-loop edge on it. -/
def loopState : DbState :=
  { schemaCreated := true, nodes := some [(1, "A")], nodeSeq := 2,
    edges := some [⟨1, 1, 1, " "⟩], edgeSeq := 2 }

/-- A store with nodes A and B and one edge from A to B. -/
def edgeState : DbState :=
  { schemaCreated := true, nodes := some [(1, "A"), (2, "B")], nodeSeq := 3,
    edges := some [⟨1, 1, 2, " "⟩], edgeSeq := 2 }

/-! ### Dict lemmas -/

theorem dictFind_dictSet {α β : Type} [DecidableEq α] (d : List (α × β)) (k k' : α) (v : β) :
    dictFind (dictSet d k v) k' = if k' = k then some v else dictFind d k' := by
  induction d with
  | nil =>
    rcases eq_or_ne k' k with h | h
    · subst h; simp [dictSet, dictFind]
    · simp [dictSet, dictFind, h, Ne.symm h]
  | cons p rest ih =>
    simp only [dictSet]
    rcases eq_or_ne p.1 k with h1 | h1
    · rw [if_pos h1]
      rcases eq_or_ne k' k with h2 | h2
      · subst h2; simp [dictFind]
      · have h3 : p.1 ≠ k' := by rw [h1]; exact Ne.symm h2
        simp [dictFind, h2, Ne.symm h2, h3]
    · rw [if_neg h1]
      rcases eq_or_ne p.1 k' with h2 | h2
      · have h3 : k' ≠ k := by rw [← h2]; exact h1
        simp [dictFind, h2, h3]
      · simp [dictFind, h2, ih]

theorem dictFind_append {α β : Type} [DecidableEq α] (d₁ d₂ : List (α × β)) (k : α) :
    dictFind (d₁ ++ d₂) k =
      match dictFind d₁ k with
      | some v => some v
      | Option.none => dictFind d₂ k := by
  induction d₁ with
  | nil => simp [dictFind]
  | cons p rest ih =>
    rcases eq_or_ne p.1 k with h | h
    · simp [dictFind, h]
    · simp [dictFind, h, ih]

theorem dictSet_of_find_none {α β : Type} [DecidableEq α] (d : List (α × β)) (k : α) (v : β)
    (h : dictFind d k = Option.none) : dictSet d k v = d ++ [(k, v)] := by
  induction d with
  | nil => simp [dictSet]
  | cons p rest ih =>
    rcases eq_or_ne p.1 k with h1 | h1
    · simp [dictFind, h1] at h
    · simp only [dictFind, if_neg h1] at h
      simp [dictSet, h1, ih h]

theorem dictFind_foldl_dictSet {α β : Type} [DecidableEq α]
    (ps : List (α × β)) (acc : List (α × β)) (k : α) :
    dictFind (ps.foldl (fun d p => dictSet d p.1 p.2) acc) k =
      match lastVal ps k with
      | some v => some v
      | Option.none => dictFind acc k := by
  induction ps generalizing acc with
  | nil => simp [lastVal]
  | cons p rest ih =>
    simp only [List.foldl_cons, lastVal]
    rw [ih]
    cases h : lastVal rest k with
    | some v => simp
    | none =>
      rw [dictFind_dictSet]
      rcases eq_or_ne p.1 k with h2 | h2
      · simp [h2]
      · simp [h2, Ne.symm h2]

theorem dictFind_dictOfPairs {α β : Type} [DecidableEq α] (ps : List (α × β)) (k : α) :
    dictFind (dictOfPairs ps) k = lastVal ps k := by
  rw [dictOfPairs, dictFind_foldl_dictSet]
  cases lastVal ps k <;> simp [dictFind]

theorem foldl_dictSet_append {α β : Type} [DecidableEq α]
    (ps : List (α × β)) (acc : List (α × β))
    (hacc : ∀ p ∈ ps, dictFind acc p.1 = Option.none)
    (hps : (ps.map Prod.fst).Nodup) :
    ps.foldl (fun d p => dictSet d p.1 p.2) acc = acc ++ ps := by
  induction ps generalizing acc with
  | nil => simp
  | cons p rest ih =>
    simp only [List.foldl_cons]
    rw [dictSet_of_find_none acc p.1 p.2 (hacc p (List.mem_cons_self p rest))]
    simp only [List.map_cons, List.nodup_cons] at hps
    have step : rest.foldl (fun d q => dictSet d q.1 q.2) (acc ++ [(p.1, p.2)]) =
        (acc ++ [(p.1, p.2)]) ++ rest := by
      refine ih (acc ++ [(p.1, p.2)]) ?_ hps.2
      intro q hq
      rw [dictFind_append]
      rw [hacc q (List.mem_cons_of_mem p hq)]
      have hne : p.1 ≠ q.1 := by
        intro hcontra
        exact hps.1 (hcontra ▸ List.mem_map_of_mem Prod.fst hq)
      simp [dictFind, hne]
    rw [step]
    simp

theorem dictOfPairs_of_nodup_keys {α β : Type} [DecidableEq α]
    (ps : List (α × β)) (hps : (ps.map Prod.fst).Nodup) : dictOfPairs ps = ps := by
  rw [dictOfPairs, foldl_dictSet_append ps [] (fun p _ => rfl) hps]
  simp

theorem lastVal_swap_eq_lastRowNamed (rows : List (Nat × String)) (name : String) :
    lastVal (rows.map fun p => (p.2, p.1)) name = (lastRowNamed rows name).map Prod.fst := by
  induction rows with
  | nil => simp [lastVal, lastRowNamed]
  | cons p rest ih =>
    simp only [List.map_cons, lastVal, lastRowNamed, ih]
    cases h : lastRowNamed rest name with
    | some q => simp
    | none =>
      rcases eq_or_ne p.2 name with h2 | h2 <;> simp [h2]

theorem lastRowNamed_eq_getLast_filter (rows : List (Nat × String)) (name : String) :
    lastRowNamed rows name = (rows.filter fun p => p.2 == name).getLast? := by
  induction rows with
  | nil => simp [lastRowNamed]
  | cons p rest ih =>
    simp only [lastRowNamed, ih, List.filter_cons]
    rcases eq_or_ne p.2 name with h | h
    · simp only [h, beq_self_eq_true, if_pos]
      cases hf : (rest.filter fun p => p.2 == name) with
      | nil => simp [hf]
      | cons q l =>
        rw [List.getLast?_cons_cons]
        cases hg : (q :: l).getLast? with
        | some r => simp
        | none => simp at hg
    · have hb : (p.2 == name) = false := beq_eq_false_iff_ne.2 h
      rw [hb]
      simp only [Bool.false_eq_true, if_false]
      cases hg : (rest.filter fun p => p.2 == name).getLast? <;> simp [hg, h]

/-! ### Evaluation lemmas for the embedded functions -/

theorem get_nodes_some {s : DbState} {rows : List (Nat × String)} (h : s.nodes = some rows) :
    get_nodes s = (s, Except.ok rows) := by
  simp [get_nodes, execStmt, h]

theorem get_nodes_none {s : DbState} (h : s.nodes = Option.none) :
    get_nodes s = (s, Except.error "relation nodes does not exist") := by
  simp [get_nodes, execStmt, h]

theorem get_edges_some {s : DbState} {rows : List EdgeRow} (h : s.edges = some rows) :
    get_edges s = (s, Except.ok (rows.map fun e => (e.start_node, e.end_node))) := by
  simp [get_edges, execStmt, h]

theorem get_edges_none {s : DbState} (h : s.edges = Option.none) :
    get_edges s = (s, Except.error "relation edges does not exist") := by
  simp [get_edges, execStmt, h]

theorem get_nodes_fst (s : DbState) : (get_nodes s).1 = s := by
  cases h : s.nodes with
  | none => rw [get_nodes_none h]
  | some rows => rw [get_nodes_some h]

theorem get_edges_fst (s : DbState) : (get_edges s).1 = s := by
  cases h : s.edges with
  | none => rw [get_edges_none h]
  | some rows => rw [get_edges_some h]

theorem snapshot_fst (s : DbState) : (snapshot s).1 = s := by
  simp [snapshot, get_nodes_fst, get_edges_fst]

theorem init_database_eq (sc : Bool) (ns : Option (List (Nat × String))) (nseq : Nat)
    (es : Option (List EdgeRow)) (eseq : Nat) :
    init_database ⟨sc, ns, nseq, es, eseq⟩ =
      (⟨true, some (ns.getD []), if ns.isSome then nseq else 1,
        some (es.getD []), if es.isSome then eseq else 1⟩,
        Except.ok (PyValue.bool true)) := by
  cases ns <;> cases es <;> simp [init_database, runStmts, execStmt]

theorem add_node_eq {s : DbState} {rows : List (Nat × String)} (node : String)
    (h : s.nodes = some rows) :
    add_node s node =
      ({ s with nodes := some (rows ++ [(s.nodeSeq, strip node)]),
                nodeSeq := s.nodeSeq + 1 }, Except.ok PyValue.none) := by
  simp [add_node, runStmts, execStmt, h]

theorem add_edge_eq_success {s : DbState} {rows : List (Nat × String)} {erows : List EdgeRow}
    {a b : Nat} (start end_ : String)
    (hn : s.nodes = some rows) (he : s.edges = some erows)
    (hf : dictFind (build_d_swap rows) (strip start) = some a)
    (hg : dictFind (build_d_swap rows) (strip end_) = some b) :
    add_edge s start end_ =
      ({ s with edges := some (erows ++ [⟨s.edgeSeq, a, b, " "⟩]),
                edgeSeq := s.edgeSeq + 1 }, Except.ok PyValue.none) := by
  simp [add_edge, get_nodes_some hn, hf, hg, runStmts, execStmt, he]

/-- Membership in the result of removing a character. -/
theorem mem_removeChar {s : String} {c x : Char} :
    x ∈ (removeChar s c).data ↔ x ∈ s.data ∧ x ≠ c := by
  show x ∈ List.filter _ s.data ↔ _
  rw [List.mem_filter]
  simp

/-! ### The claims -/

/-- C1: if a given name has no matching node in the current node list
(its lookup in `d_swap` fails; Python raises `KeyError`, the spec's
`NameNotFound`), then `add_edge` fails and inserts nothing: both endpoint
names are resolved before the INSERT, so the whole state — in particular
the edge list — is unchanged after the failed call. -/
theorem add_edge_name_not_found (s : DbState) (start end_ : String)
    (rows : List (Nat × String)) (hrows : s.nodes = some rows)
    (hmiss : dictFind (build_d_swap rows) (strip start) = Option.none ∨
      dictFind (build_d_swap rows) (strip end_) = Option.none) :
    add_edge s start end_ = (s, Except.error "KeyError") ∧
    (get_edges (add_edge s start end_).1).2 = (get_edges s).2 := by
  have hmain : add_edge s start end_ = (s, Except.error "KeyError") := by
    simp only [add_edge, get_nodes_some hrows]
    rcases hmiss with h | h
    · simp [h]
    · cases hf : dictFind (build_d_swap rows) (strip start) with
      | none => simp [hf]
      | some a => simp [hf, h]
  exact ⟨hmain, by rw [hmain]⟩

theorem add_edge_name_not_found_witness :
    add_edge sampleState "A" "Z" = (sampleState, Except.error "KeyError") ∧
    (get_edges (add_edge sampleState "A" "Z").1).2 = (get_edges sampleState).2 :=
  add_edge_name_not_found sampleState "A" "Z" [(1, "A"), (2, "B")] rfl (Or.inr (by decide))

/-- C3: over a node list with pairwise-distinct ids (the table's ids come
from a SERIAL primary key), the name-to-id mapping `d_swap` that
`add_edge` builds resolves a name to exactly the id of the row appearing
last in iteration order with that name — last-write-wins in the
inversion, so with duplicate names every other id with the name is
unreachable through resolution. -/
theorem resolution_last_write_wins (rows : List (Nat × String)) (name : String)
    (hids : (rows.map Prod.fst).Nodup) :
    dictFind (build_d_swap rows) name = (lastRowNamed rows name).map Prod.fst ∧
    dictFind (build_d_swap rows) name =
      ((rows.filter fun p => p.2 == name).getLast?).map Prod.fst := by
  have h : dictFind (build_d_swap rows) name = (lastRowNamed rows name).map Prod.fst := by
    simp only [build_d_swap]
    rw [dictOfPairs_of_nodup_keys rows hids, dictFind_dictOfPairs,
      lastVal_swap_eq_lastRowNamed]
  exact ⟨h, by rw [h, lastRowNamed_eq_getLast_filter]⟩

theorem resolution_last_write_wins_witness :
    dictFind (build_d_swap [(1, "A"), (2, "A")]) "A" =
      (lastRowNamed [(1, "A"), (2, "A")] "A").map Prod.fst ∧
    dictFind (build_d_swap [(1, "A"), (2, "A")]) "A" =
      ((([(1, "A"), (2, "A")] : List (Nat × String)).filter
        fun p => p.2 == "A").getLast?).map Prod.fst :=
  resolution_last_write_wins [(1, "A"), (2, "A")] "A" (by decide)

/-- C4: for a non-empty input, `add_node` appends exactly one row whose
name is the trimmed input and whose id is the fresh SERIAL value (distinct
from every existing id, given the sequence invariant); there is no
uniqueness check, so the statement holds even when the trimmed name is
already present. -/
theorem add_node_appends (s : DbState) (node : String) (rows : List (Nat × String))
    (hrows : s.nodes = some rows) (hfresh : ∀ p ∈ rows, p.1 < s.nodeSeq)
    (_hnonempty : strip node ≠ "") :
    (add_node s node).1.nodes = some (rows ++ [(s.nodeSeq, strip node)]) ∧
    (add_node s node).2 = Except.ok PyValue.none ∧
    (∀ p ∈ rows, p.1 ≠ s.nodeSeq) ∧
    (get_nodes (add_node s node).1).2 = Except.ok (rows ++ [(s.nodeSeq, strip node)]) := by
  rw [add_node_eq node hrows]
  refine ⟨rfl, rfl, fun p hp => Nat.ne_of_lt (hfresh p hp), ?_⟩
  rw [get_nodes_some rfl]

theorem add_node_appends_witness :
    (add_node sampleState "A").1.nodes = some ([(1, "A"), (2, "B")] ++ [(3, strip "A")]) ∧
    (add_node sampleState "A").2 = Except.ok PyValue.none ∧
    (∀ p ∈ ([(1, "A"), (2, "B")] : List (Nat × String)), p.1 ≠ sampleState.nodeSeq) ∧
    (get_nodes (add_node sampleState "A").1).2 =
      Except.ok ([(1, "A"), (2, "B")] ++ [(3, strip "A")]) :=
  add_node_appends sampleState "A" [(1, "A"), (2, "B")] rfl (by decide) (by decide)

/-- C2 (code defect): deleting node "A" from a store holding the node row
(1, "A") and the self-loop edge 1→1 is meant to remove the node row and
every edge touching id 1; but the second DELETE issued by `delete_node`
references the nonexistent column `start`, the statement fails, the
transaction rolls back before the commit, and both the node list and the
edge list are left exactly as they were — the dangling-edge contract is
never established. -/
theorem delete_node_defect :
    delete_node loopState "A" = (loopState, Except.error "column start does not exist") ∧
    (get_nodes (delete_node loopState "A").1).2 = Except.ok [(1, "A")] ∧
    (get_edges (delete_node loopState "A").1).2 = Except.ok [(1, 1)] :=
  ⟨rfl, rfl, rfl⟩

/-- C5 (code defect): with the single edge row (1, 1, 2, " ") in the
store, `delete_edge 1 2` is meant to remove exactly that row; the DELETE
references the nonexistent column `start`, so the statement fails and the
edge list is unchanged. -/
theorem delete_edge_defect :
    delete_edge edgeState 1 2 = (edgeState, Except.error "column start does not exist") ∧
    (get_edges (delete_edge edgeState 1 2).1).2 = Except.ok [(1, 2)] :=
  ⟨rfl, rfl⟩

/-- C6: `snapshot()` leaves the store unchanged, and calling it twice with
no intervening write returns equal node lists and equal edge lists. -/
theorem snapshot_idempotent (s : DbState) :
    (snapshot s).1 = s ∧ (snapshot ((snapshot s).1)).2 = (snapshot s).2 :=
  ⟨snapshot_fst s, by rw [snapshot_fst s]⟩

/-- C7 (counterexample): the source strips only hyphens, not every
non-alphanumeric character, from the user identifier: with PGUSER
`"a.b"` the schema name keeps the dot, so the user part of the result is
not all-alphanumeric. -/
theorem get_schema_name_counterexample :
    get_schema_name "my_app" "a.b" = "my_app_schema_a.b" ∧
    ¬ (∀ c ∈ (removeChar "a.b" '-').data, c.isAlphanum = true) := by
  constructor
  · rfl
  · decide

/-- C7 (amended): the schema name is deterministically
`{pgappname}_schema_{pguser}` with only hyphen characters removed from the
user identifier: the user part contains no hyphen and every one of its
characters comes from the original identifier; other non-alphanumeric
characters are preserved rather than stripped. -/
theorem get_schema_name_spec (pgappname pguser : String) :
    get_schema_name pgappname pguser = pgappname ++ "_schema_" ++ removeChar pguser '-' ∧
    '-' ∉ (removeChar pguser '-').data ∧
    ∀ c ∈ (removeChar pguser '-').data, c ∈ pguser.data := by
  refine ⟨rfl, ?_, ?_⟩
  · intro hmem
    exact (mem_removeChar.1 hmem).2 rfl
  · intro c hc
    exact (mem_removeChar.1 hc).1

theorem get_schema_name_spec_witness :
    get_schema_name "my_app" "a-b" = "my_app" ++ "_schema_" ++ removeChar "a-b" '-' ∧
    '-' ∉ (removeChar "a-b" '-').data :=
  ⟨(get_schema_name_spec "my_app" "a-b").1, (get_schema_name_spec "my_app" "a-b").2.1⟩

/-- C8: `init_database` is idempotent: on a state where the schema and
both tables already exist it is a no-op returning True; from any state,
running it leaves the schema and both tables present, and running it a
second time changes nothing. -/
theorem init_database_idempotent (s : DbState) :
    (s.schemaCreated = true → s.nodes.isSome = true → s.edges.isSome = true →
      init_database s = (s, Except.ok (PyValue.bool true))) ∧
    ((init_database s).1.schemaCreated = true ∧ (init_database s).1.nodes.isSome = true ∧
      (init_database s).1.edges.isSome = true) ∧
    init_database ((init_database s).1) =
      ((init_database s).1, Except.ok (PyValue.bool true)) ∧
    (init_database ((init_database s).1)).1 = (init_database s).1 := by
  obtain ⟨sc, ns, nseq, es, eseq⟩ := s
  have hpost := init_database_eq sc ns nseq es eseq
  refine ⟨?_, ?_, ?_, ?_⟩
  · intro h1 h2 h3
    cases ns with
    | none => simp at h2
    | some nrows =>
      cases es with
      | none => simp at h3
      | some erows =>
        simp only at h1
        subst h1
        simp [init_database_eq]
  · rw [hpost]
    simp
  · rw [hpost, init_database_eq]
    simp
  · rw [hpost, init_database_eq]
    simp

theorem init_database_idempotent_witness :
    init_database sampleState = (sampleState, Except.ok (PyValue.bool true)) :=
  (init_database_idempotent sampleState).1 rfl rfl rfl

/-- C9: `add_node` and `add_edge` have no return statement, so on success
they return None, which is falsy — `pyTruthy` of the returned value is
false, hence the UI branches `if add_node(...)` and `if add_edge(...)` in
`main` are never taken even though the row was inserted. -/
theorem add_returns_none (s : DbState) (node start end_ : String) :
    (∀ v, (add_node s node).2 = Except.ok v →
      v = PyValue.none ∧ pyTruthy v = false ∧
      ∃ rows, s.nodes = some rows ∧
        (add_node s node).1.nodes = some (rows ++ [(s.nodeSeq, strip node)])) ∧
    (∀ v, (add_edge s start end_).2 = Except.ok v →
      v = PyValue.none ∧ pyTruthy v = false ∧
      ∃ erows a b, s.edges = some erows ∧
        (add_edge s start end_).1.edges = some (erows ++ [⟨s.edgeSeq, a, b, " "⟩])) := by
  constructor
  · intro v hv
    cases hn : s.nodes with
    | none => simp [add_node, runStmts, execStmt, hn] at hv
    | some rows =>
      rw [add_node_eq node hn] at hv
      simp only [Except.ok.injEq] at hv
      subst hv
      refine ⟨rfl, rfl, rows, rfl, ?_⟩
      rw [add_node_eq node hn]
  · intro v hv
    cases hn : s.nodes with
    | none => simp [add_edge, get_nodes_none hn] at hv
    | some rows =>
      cases hf : dictFind (build_d_swap rows) (strip start) with
      | none => simp [add_edge, get_nodes_some hn, hf] at hv
      | some a =>
        cases hg : dictFind (build_d_swap rows) (strip end_) with
        | none => simp [add_edge, get_nodes_some hn, hf, hg] at hv
        | some b =>
          cases he : s.edges with
          | none =>
            simp [add_edge, get_nodes_some hn, hf, hg, runStmts, execStmt, he] at hv
          | some erows =>
            rw [add_edge_eq_success start end_ hn he hf hg] at hv
            simp only [Except.ok.injEq] at hv
            subst hv
            refine ⟨rfl, rfl, erows, a, b, rfl, ?_⟩
            rw [add_edge_eq_success start end_ hn he hf hg]

theorem add_returns_none_witness :
    (PyValue.none = PyValue.none ∧ pyTruthy PyValue.none = false ∧
      ∃ rows, sampleState.nodes = some rows ∧
        (add_node sampleState "C").1.nodes =
          some (rows ++ [(sampleState.nodeSeq, strip "C")])) ∧
    (PyValue.none = PyValue.none ∧ pyTruthy PyValue.none = false ∧
      ∃ erows a b, sampleState.edges = some erows ∧
        (add_edge sampleState "A" "B").1.edges =
          some (erows ++ [⟨sampleState.edgeSeq, a, b, " "⟩])) :=
  ⟨(add_returns_none sampleState "C" "A" "B").1 PyValue.none rfl,
   (add_returns_none sampleState "C" "A" "B").2 PyValue.none rfl⟩

/-- C10: `get_nodes` and `get_edges` are pure reads: for every store
state the post-state equals the pre-state, so both the nodes table and
the edges table are left exactly as they were. -/
theorem reads_are_pure (s : DbState) :
    (get_nodes s).1 = s ∧ (get_edges s).1 = s ∧
    (get_nodes s).1.nodes = s.nodes ∧ (get_nodes s).1.edges = s.edges ∧
    (get_edges s).1.nodes = s.nodes ∧ (get_edges s).1.edges = s.edges :=
  ⟨get_nodes_fst s, get_edges_fst s, by rw [get_nodes_fst], by rw [get_nodes_fst],
    by rw [get_edges_fst], by rw [get_edges_fst]⟩

end GraphApp
